import Mathlib

/-!
Verification of the meeting-note-summarizer audio capture plugin.

The repository implements a Flutter audio-capture plugin twice: a Windows
implementation (`src/windows/runner/audio_capture_plugin.cpp`) with a real
producer thread generating mock audio, and a stateless Linux mock
(`src/linux/audio_capture_plugin.cc`).  This file shallowly embeds both:

* the PCM sample encoder (the `startCapture` callback body, windows plugin
  lines 195-214): float samples are modelled as exact rationals, the
  `static_cast<int16_t>(sample * 32767.0f)` as integer truncation toward
  zero of the exact product (exact for the in-range inputs the claims
  quantify over), and the two masked byte extractions literally;
* the capture engine `WindowsAudioCapture` as a record
  (`isCapturing_`, `captureThread_`, `callback_`, COM initialisation) with
  `StartCapture` / `StopCapture` / destructor as state transformers;
* the cross-thread stop/join protocol as a small-step transition system
  (control thread running `StopCapture` against the producer loop of
  `CaptureWorker`);
* the producer loop output of `CaptureWorker` as an event trace
  (deliveries and sleeps);
* the two `HandleMethodCall` dispatchers over an embedded
  `EncodableValue`-like value type, maps being association lists in
  insertion order.
-/

namespace MeetingNoteSummarizer

/-! ### Sample encoding

From the `startCapture` callback, `audio_capture_plugin.cpp` lines 197-205:

```
int16_t intSample = static_cast<int16_t>(sample * 32767.0f);
audioData.push_back(intSample & 0xFF);
audioData.push_back((intSample >> 8) & 0xFF);
```
-/

/-- `intSample & 0xFF`: the low byte of a two's-complement 16-bit value.
On `int`, `& 0xFF` selects the mathematically nonnegative residue mod 256,
which is `Int.emod` (Lean's `%`). -/
def lowByte (n : ℤ) : ℕ := (n % 256).toNat

/-- `(intSample >> 8) & 0xFF`: arithmetic shift right by 8 (floor division
by 256) followed by masking the low byte. -/
def highByte (n : ℤ) : ℕ := ((n.fdiv 256) % 256).toNat

/-- `static_cast<int16_t>(sample * 32767.0f)`: round toward zero.  The float
product is modelled as the exact rational product; truncation toward zero of
a rational is `Int.tdiv` of its numerator by its denominator (C's integer
cast semantics).  Faithful for in-range samples, where the float product and
the cast are exact. -/
def quantize (s : ℚ) : ℤ := ((s * 32767).num).tdiv ((s * 32767).den : ℤ)

/-- One sample becomes two bytes, low byte first (little-endian). -/
def encodeSample (s : ℚ) : List ℕ := [lowByte (quantize s), highByte (quantize s)]

/-- The whole block is encoded sample by sample, in order (`for (float
sample : samples)` appending two bytes per sample). -/
def encodeBlock (b : List ℚ) : List ℕ := b.flatMap encodeSample

/-- Decoding a little-endian byte pair as a signed 16-bit integer (the
consumer-side reading the spec's round-trip property refers to). -/
def decodeI16 (lo hi : ℕ) : ℤ :=
  if ((lo : ℤ) + 256 * hi) < 32768 then (lo : ℤ) + 256 * hi
  else (lo : ℤ) + 256 * hi - 65536

/-- Decode a byte stream pairwise. -/
def decodeBlock : List ℕ → List ℤ
  | lo :: hi :: rest => decodeI16 lo hi :: decodeBlock rest
  | _ => []

/-! ### The capture engine `WindowsAudioCapture`

`audio_capture_plugin.cpp` lines 31-88.  The engine owns an atomic
`isCapturing_` flag, an optional thread handle `captureThread_`
(`std::unique_ptr<std::thread>`, modelled by an optional thread id), the
stored callback `callback_` (type parameter `C`; `std::function`'s empty
state is `none`), and the COM initialisation performed in the constructor
and undone in the destructor. -/

structure EngineState (C : Type) where
  isCapturing : Bool
  captureThread : Option ℕ
  callback : Option C
  comInitialized : Bool
  deriving DecidableEq

/-- `WindowsAudioCapture()` : `isCapturing_(false), captureThread_(nullptr)`
and `CoInitializeEx`. -/
def initEngine (C : Type) : EngineState C :=
  { isCapturing := false, captureThread := none, callback := none, comInitialized := true }

/-- `WindowsAudioCapture::StartCapture` (lines 42-49).  Returns the new
state and the boolean result; the boolean is also exactly "a producer
thread was spawned by this call", `tid` being the id of the thread that
would be spawned. -/
def StartCapture {C : Type} (s : EngineState C) (cb : C) (tid : ℕ) :
    EngineState C × Bool :=
  if s.isCapturing then (s, false)
  else ({ s with callback := some cb, isCapturing := true, captureThread := some tid }, true)

/-- `WindowsAudioCapture::StopCapture` (lines 51-57): clear the flag, join
the thread if present, release the handle.  The blocking join itself is
modelled by the transition system below; on the state, stopping clears the
flag and the handle and leaves the stored callback in place. -/
def StopCapture {C : Type} (s : EngineState C) : EngineState C :=
  { s with isCapturing := false, captureThread := none }

/-- `~WindowsAudioCapture` (lines 37-40): run `StopCapture()` first, then
release the COM resources (`CoUninitialize`). -/
def destroyEngine {C : Type} (s : EngineState C) : EngineState C :=
  { StopCapture s with comInitialized := false }

/-- An engine is Idle when it is not capturing and owns no producer thread
(the initial state, and the state `StopCapture` re-establishes). -/
def Idle {C : Type} (s : EngineState C) : Prop :=
  s.isCapturing = false ∧ s.captureThread = none

/-! ### The stop/join protocol as a transition system

Cross-thread behaviour of `StopCapture` (control thread) against
`CaptureWorker` (producer thread, lines 67-83).  The producer loop re-reads
the atomic `isCapturing_` at the top of each iteration and exits when it is
false; `StopCapture` first writes `isCapturing_ = false` and then blocks in
`join()`, which completes only once the worker has exited.  A state records
the flag, whether the worker thread is still alive, how far the control
thread has progressed through `StopCapture`, and how many chunks the worker
has delivered to the sink callback so far. -/

inductive StopPhase where
  | notCalled
  | flagCleared
  | returned
  deriving DecidableEq

structure StopSysState where
  flag : Bool
  workerAlive : Bool
  stopPhase : StopPhase
  delivered : ℕ
  deriving DecidableEq

/-- Interleaved small steps of the producer thread and of a control thread
executing `StopCapture` once. -/
inductive StopStep : StopSysState → StopSysState → Prop where
  | workerDeliver (s : StopSysState) (hA : s.workerAlive = true) (hF : s.flag = true) :
      StopStep s { s with delivered := s.delivered + 1 }
  | workerExit (s : StopSysState) (hA : s.workerAlive = true) (hF : s.flag = false) :
      StopStep s { s with workerAlive := false }
  | stopClearFlag (s : StopSysState) (h : s.stopPhase = StopPhase.notCalled) :
      StopStep s { s with flag := false, stopPhase := StopPhase.flagCleared }
  | stopJoinReturn (s : StopSysState) (h : s.stopPhase = StopPhase.flagCleared)
      (hA : s.workerAlive = false) :
      StopStep s { s with stopPhase := StopPhase.returned }

/-- Zero or more interleaved steps. -/
def StopSteps : StopSysState → StopSysState → Prop := Relation.ReflTransGen StopStep

/-- The state right after a successful `StartCapture`: flag set, worker
alive, `StopCapture` not yet called, nothing delivered yet. -/
def capturingInit : StopSysState :=
  { flag := true, workerAlive := true, stopPhase := StopPhase.notCalled, delivered := 0 }

/-- Invariant: once the control thread has cleared the flag it stays
cleared, and `join` can only have returned once the worker has exited. -/
def StopInv (s : StopSysState) : Prop :=
  (s.stopPhase ≠ StopPhase.notCalled → s.flag = false) ∧
  (s.stopPhase = StopPhase.returned → s.workerAlive = false)

/-! ### The producer loop output `CaptureWorker`

Lines 67-83: while the flag is set, synthesize one 1600-sample block, hand
it to the stored callback, then sleep 100 ms.  The callback (installed by
`startCapture`, lines 195-214) encodes the block and pushes it to the event
sink when one is attached, silently dropping it otherwise.  The float sine
values `0.1f * sin(2*3.14159*440*i/16000)` are abstracted by the sample
generator `f` (a fixed function of the sample index only — it reads no
plugin or engine state); the `GetTickCount64()` timestamp by `ts`. -/

/-- `// Generate 1600 samples (100ms at 16kHz)` — the fixed block size,
also the `bufferSize` reported by `getAudioConfig`. -/
def blockSizeFrames : ℕ := 1600

/-- One synthesized block: `samples[i] = 0.1f * sin(...)`, i.e. `f i` for
the per-index sample generator `f`. -/
def genBlock (f : ℕ → ℚ) : List ℚ := (List.range blockSizeFrames).map f

/-- The encoded payload pushed through the event sink:
`{"data": audioData, "timestamp": GetTickCount64()}`. -/
structure Chunk where
  data : List ℕ
  timestamp : ℕ
  deriving DecidableEq

/-- The `startCapture` callback body: if a sink is attached, encode and
deliver one chunk, otherwise drop the block. -/
def captureCallback (sinkAttached : Bool) (ts : ℕ) (samples : List ℚ) : Option Chunk :=
  if sinkAttached then some { data := encodeBlock samples, timestamp := ts } else none

/-- Observable producer-loop events: a chunk delivery to the sink, or the
100 ms pacing sleep ending one loop iteration. -/
inductive WorkerEvent where
  | deliver (c : Chunk)
  | sleepBlockInterval
  deriving DecidableEq

/-- The event trace of `n` iterations of the `CaptureWorker` loop: each
iteration first invokes the callback on a fresh block (delivering iff a
sink is attached) and only then sleeps for one block interval. -/
def workerTrace (f : ℕ → ℚ) (sinkAttached : Bool) (ts : ℕ) : ℕ → List WorkerEvent
  | 0 => []
  | n + 1 =>
      (match captureCallback sinkAttached ts (genBlock f) with
       | some c => [WorkerEvent.deliver c]
       | none => []) ++ WorkerEvent.sleepBlockInterval :: workerTrace f sinkAttached ts n

/-! ### The boundary value type and the two method-call dispatchers

`flutter::EncodableValue` / `FlValue` embedded as an inductive value type.
Maps are association lists of string keys in insertion order (the plugin
code only ever uses string keys). -/

inductive EValue where
  | str (s : String)
  | int (n : ℤ)
  | bool (b : Bool)
  | list (xs : List EValue)
  | map (entries : List (String × EValue))

/-- First-match association-list lookup (`std::map::find` /
`fl_value_lookup_string`; keys are unique in every map the plugin builds or
receives here). -/
def lookupMap (m : List (String × EValue)) (k : String) : Option EValue :=
  match m with
  | [] => none
  | (k2, v) :: rest => if k2 = k then some v else lookupMap rest k

/-- A method-call outcome: `result->Success(v)`, `result->Error(code, msg)`
or `result->NotImplemented()`. -/
inductive MethodResponse where
  | success (v : EValue)
  | error (code : String) (msg : String)
  | notImplemented

/-- Field access on a success-map response. -/
def respField (r : MethodResponse) (k : String) : Option EValue :=
  match r with
  | MethodResponse.success (EValue.map m) => lookupMap m k
  | _ => none

/-- `WindowsAudioCapture::GetAudioSources` (lines 59-64). -/
def GetAudioSources : List String := ["Default Microphone", "System Audio (Loopback)"]

/-- The hard-coded system audio entry (lines 159-164). -/
def systemAudioEntry : EValue :=
  EValue.map [("id", EValue.str "system_audio"), ("name", EValue.str "System Audio"),
    ("type", EValue.str "system"), ("isAvailable", EValue.bool true)]

/-- The discovered-source entries (lines 167-174): index `i` becomes id
`"device_<i>"`. -/
def deviceEntries (sources : List String) : List EValue :=
  sources.enum.map (fun p =>
    EValue.map [("id", EValue.str ("device_" ++ toString p.1)),
      ("name", EValue.str p.2), ("type", EValue.str "microphone"),
      ("isAvailable", EValue.bool true)])

/-- `AudioCapturePlugin` state: the owned engine and whether an event sink
is currently attached (the stream handler swaps it in and out). -/
structure PluginState where
  audioCapture : EngineState Unit
  audioEventSink : Bool
  deriving DecidableEq

/-- `AudioCapturePlugin()` : fresh engine, no sink attached yet. -/
def initPlugin : PluginState :=
  { audioCapture := initEngine Unit, audioEventSink := false }

/-- `AudioCapturePlugin::HandleMethodCall` (lines 149-238).  `tid` is the
id of the producer thread a successful `StartCapture` would spawn.  The
callback stored into the engine is the closure over `this` modelled by
`captureCallback`, recorded here as `()`. -/
def HandleMethodCall (st : PluginState) (method : String) (args : Option EValue)
    (tid : ℕ) : PluginState × MethodResponse :=
  if method = "getAvailableAudioSources" then
    (st, MethodResponse.success (EValue.list
      (systemAudioEntry :: deviceEntries GetAudioSources)))
  else if method = "selectAudioSource" then
    match args with
    | some (EValue.map m) =>
      match lookupMap m "sourceId" with
      | some (EValue.str s) =>
        (st, MethodResponse.success (EValue.map
          [("success", EValue.bool true), ("selectedSourceId", EValue.str s)]))
      | _ => (st, MethodResponse.error "INVALID_ARGUMENTS" "sourceId is required")
    | _ => (st, MethodResponse.error "INVALID_ARGUMENTS" "sourceId is required")
  else if method = "startCapture" then
    let r := StartCapture st.audioCapture () tid
    ({ st with audioCapture := r.1 },
     MethodResponse.success (EValue.map
       [("success", EValue.bool r.2),
        ("message", EValue.str
          (if r.2 then "Audio capture started" else "Failed to start audio capture"))]))
  else if method = "stopCapture" then
    ({ st with audioCapture := StopCapture st.audioCapture },
     MethodResponse.success (EValue.map
       [("success", EValue.bool true), ("message", EValue.str "Audio capture stopped")]))
  else if method = "getAudioConfig" then
    (st, MethodResponse.success (EValue.map
      [("sampleRate", EValue.int 16000), ("channels", EValue.int 1),
       ("bitsPerSample", EValue.int 16), ("bufferSize", EValue.int 1600)]))
  else
    (st, MethodResponse.notImplemented)

/-- `fl_value_lookup_string(args, k)`: the value under string key `k` when
`args` is a map holding it, otherwise null. -/
def flLookupString (args : Option EValue) (k : String) : Option EValue :=
  match args with
  | some (EValue.map m) => lookupMap m k
  | _ => none

/-- The Linux `getAudioSources` entries (lines 24-43), in list order:
default microphone first, then system audio. -/
def linuxSourceEntries : List EValue :=
  [EValue.map [("id", EValue.str "default_microphone"),
     ("name", EValue.str "Default Microphone"), ("type", EValue.str "microphone"),
     ("isAvailable", EValue.bool true)],
   EValue.map [("id", EValue.str "system_audio"), ("name", EValue.str "System Audio"),
     ("type", EValue.str "system"), ("isAvailable", EValue.bool true)]]

/-- `audio_capture_plugin_handle_method_call` (linux plugin lines 17-81).
The Linux mock is stateless: every branch only builds a response. -/
def linuxHandle (method : String) (args : Option EValue) : MethodResponse :=
  if method = "getAudioSources" then
    MethodResponse.success (EValue.list linuxSourceEntries)
  else if method = "selectAudioSource" then
    match flLookupString args "sourceId" with
    | some (EValue.str s) =>
      MethodResponse.success (EValue.map
        [("success", EValue.bool true), ("selectedSourceId", EValue.str s)])
    | _ => MethodResponse.error "INVALID_ARGUMENTS" "sourceId is required"
  else if method = "startCapture" then
    MethodResponse.success (EValue.map
      [("success", EValue.bool true),
       ("message", EValue.str "Capture started (mock implementation)")])
  else if method = "stopCapture" then
    MethodResponse.success (EValue.map
      [("success", EValue.bool true),
       ("message", EValue.str "Capture stopped (mock implementation)")])
  else if method = "getAudioConfig" then
    MethodResponse.success (EValue.map
      [("sampleRate", EValue.int 16000), ("channels", EValue.int 1),
       ("bitsPerSample", EValue.int 16), ("bufferSize", EValue.int 1600)])
  else
    MethodResponse.notImplemented

/-- The string sourceId extracted from a `selectAudioSource` argument, when
the arguments are a map holding a string under `"sourceId"`. -/
def sourceIdArg (args : Option EValue) : Option String :=
  match args with
  | some (EValue.map m) =>
    match lookupMap m "sourceId" with
    | some (EValue.str s) => some s
    | _ => none
  | _ => none

/-- Boolean test for "this catalog entry has id `system_audio`". -/
def isSystemAudioEntry (v : EValue) : Bool :=
  match v with
  | EValue.map m =>
    match lookupMap m "id" with
    | some (EValue.str s) => s == "system_audio"
    | _ => false
  | _ => false


/-! ### Supporting lemmas -/

theorem decode_encode_int16 (n : ℤ) (h1 : -32768 ≤ n) (h2 : n < 32768) :
    decodeI16 (lowByte n) (highByte n) = n := by
  have hlo : ((lowByte n : ℕ) : ℤ) = n % 256 := by
    simp [lowByte, Int.toNat_of_nonneg (Int.emod_nonneg n (by norm_num : (256:ℤ) ≠ 0))]
  have hhi : ((highByte n : ℕ) : ℤ) = (n / 256) % 256 := by
    simp [highByte, Int.fdiv_eq_ediv _ (by norm_num : (0:ℤ) ≤ 256),
      Int.toNat_of_nonneg (Int.emod_nonneg (n / 256) (by norm_num : (256:ℤ) ≠ 0))]
  unfold decodeI16
  rw [hlo, hhi]
  split <;> omega

theorem tdiv_le_bound {n d K : ℤ} (hd : 0 < d) (hK : 0 ≤ K) (h : n ≤ K * d) :
    n.tdiv d ≤ K := by
  rcases le_or_lt 0 n with hn | hn
  · rw [Int.tdiv_eq_ediv hn hd.le]
    by_contra hcon
    push_neg at hcon
    have : (K + 1) * d ≤ n := (Int.le_ediv_iff_mul_le hd).mp (by omega)
    nlinarith
  · have hpos : 0 ≤ (-n).tdiv d := Int.tdiv_nonneg (by omega) hd.le
    have e := Int.neg_tdiv n d
    omega

theorem tdiv_lower_bound {n d K : ℤ} (hd : 0 < d) (hK : 0 ≤ K)
    (h : -(K * d) ≤ n) : -K ≤ n.tdiv d := by
  have hb := tdiv_le_bound (n := -n) hd hK (by omega)
  have e := Int.neg_tdiv n d
  omega

theorem quantize_bounds {s : ℚ} (h1 : -1 ≤ s) (h2 : s ≤ 1) :
    -32767 ≤ quantize s ∧ quantize s ≤ 32767 := by
  set q : ℚ := s * 32767 with hqdef
  have hub : q ≤ 32767 := by rw [hqdef]; nlinarith
  have hlb : -32767 ≤ q := by rw [hqdef]; nlinarith
  have hdenp : (0 : ℤ) < (q.den : ℤ) := by exact_mod_cast q.den_pos
  have hnum : (q.num : ℚ) = q * (q.den : ℚ) := by
    have hd : ((q.den : ℚ)) ≠ 0 := by exact_mod_cast q.den_pos.ne'
    have h : ((q.num : ℚ) / (q.den : ℚ)) * (q.den : ℚ) = q * (q.den : ℚ) := by
      rw [Rat.num_div_den q]
    rwa [div_mul_cancel₀ _ hd] at h
  have hnum_ub : q.num ≤ 32767 * (q.den : ℤ) := by
    have : (q.num : ℚ) ≤ 32767 * (q.den : ℚ) := by
      rw [hnum]
      have : (0:ℚ) ≤ (q.den : ℚ) := by positivity
      nlinarith
    exact_mod_cast this
  have hnum_lb : -(32767 * (q.den : ℤ)) ≤ q.num := by
    have : -(32767 * (q.den : ℚ)) ≤ (q.num : ℚ) := by
      rw [hnum]
      have : (0:ℚ) ≤ (q.den : ℚ) := by positivity
      nlinarith
    exact_mod_cast this
  exact ⟨tdiv_lower_bound hdenp (by norm_num) hnum_lb,
         tdiv_le_bound hdenp (by norm_num) hnum_ub⟩

theorem decode_encode_sample {s : ℚ} (h1 : -1 ≤ s) (h2 : s ≤ 1) :
    decodeI16 (lowByte (quantize s)) (highByte (quantize s)) = quantize s := by
  obtain ⟨ha, hb⟩ := quantize_bounds h1 h2
  exact decode_encode_int16 _ (by omega) (by omega)

theorem decodeBlock_encodeBlock (b : List ℚ) (h : ∀ s ∈ b, -1 ≤ s ∧ s ≤ 1) :
    decodeBlock (encodeBlock b) = b.map quantize := by
  induction b with
  | nil => rfl
  | cons s rest ih =>
    have hs := h s (List.mem_cons_self s rest)
    have hrest : ∀ x ∈ rest, -1 ≤ x ∧ x ≤ 1 := fun x hx => h x (List.mem_cons_of_mem _ hx)
    show decodeBlock (encodeSample s ++ encodeBlock rest) = quantize s :: rest.map quantize
    rw [encodeSample]
    show decodeI16 (lowByte (quantize s)) (highByte (quantize s)) :: decodeBlock (encodeBlock rest)
      = quantize s :: rest.map quantize
    rw [decode_encode_sample hs.1 hs.2, ih hrest]

theorem quantize_zero : quantize 0 = 0 := by
  have h0 : (0 : ℚ) * 32767 = 0 := by norm_num
  simp [quantize, h0]

theorem quantize_one : quantize 1 = 32767 := by
  have h1 : (1 : ℚ) * 32767 = 32767 := by norm_num
  rw [quantize, h1]
  norm_num

theorem encodeBlock_length (b : List ℚ) : (encodeBlock b).length = 2 * b.length := by
  induction b with
  | nil => rfl
  | cons s rest ih =>
    show (encodeSample s ++ encodeBlock rest).length = 2 * (rest.length + 1)
    rw [List.length_append, ih]
    simp [encodeSample]
    ring

theorem stopInv_init : StopInv capturingInit := by
  constructor <;> intro h <;> simp [capturingInit] at h

theorem stopInv_step {s t : StopSysState} (hInv : StopInv s) (hStep : StopStep s t) :
    StopInv t := by
  obtain ⟨h1, h2⟩ := hInv
  cases hStep with
  | workerDeliver hA hF => exact ⟨h1, h2⟩
  | workerExit hA hF => exact ⟨fun h => h1 h, fun _ => rfl⟩
  | stopClearFlag h => exact ⟨fun _ => rfl, fun hc => by simp_all⟩
  | stopJoinReturn h hA => exact ⟨fun _ => h1 (by simp [h]), fun _ => hA⟩

theorem stopInv_steps {s t : StopSysState} (hInv : StopInv s) (hSteps : StopSteps s t) :
    StopInv t := by
  induction hSteps with
  | refl => exact hInv
  | tail _ hstep ih => exact stopInv_step ih hstep

/-- Once `StopCapture` has returned, the system is stuck: no worker step
(the worker has exited), no further control step. -/
theorem returned_no_step {s t : StopSysState} (hInv : StopInv s)
    (hRet : s.stopPhase = StopPhase.returned) (hStep : StopStep s t) : False := by
  obtain ⟨h1, h2⟩ := hInv
  cases hStep with
  | workerDeliver hA hF => simp [h2 hRet] at hA
  | workerExit hA hF => simp [h2 hRet] at hA
  | stopClearFlag h => simp [hRet] at h
  | stopJoinReturn h hA => simp [hRet] at h

theorem returned_terminal {s t : StopSysState} (hInv : StopInv s)
    (hRet : s.stopPhase = StopPhase.returned) (hSteps : StopSteps s t) : t = s := by
  rcases Relation.ReflTransGen.cases_head hSteps with h | ⟨c, hc, _⟩
  · exact h.symm
  · exact absurd hc (fun h => returned_no_step hInv hRet h)

theorem genBlock_length (f : ℕ → ℚ) : (genBlock f).length = blockSizeFrames := by
  simp [genBlock]

theorem workerTrace_deliver_length {f : ℕ → ℚ} {sinkAttached : Bool} {ts n : ℕ}
    {c : Chunk} (h : WorkerEvent.deliver c ∈ workerTrace f sinkAttached ts n) :
    c.data.length = 2 * blockSizeFrames := by
  induction n with
  | zero => simp [workerTrace] at h
  | succ n ih =>
    rw [workerTrace] at h
    cases hs : sinkAttached with
    | false =>
      rw [hs] at h
      simp only [captureCallback, if_neg, Bool.false_eq_true, not_false_iff,
        List.nil_append, List.mem_cons, reduceCtorEq, false_or] at h
      exact ih (hs ▸ h)
    | true =>
      rw [hs] at h
      simp only [captureCallback, if_pos, List.cons_append, List.nil_append,
        List.mem_cons, reduceCtorEq, false_or, WorkerEvent.deliver.injEq] at h
      rcases h with h | h
      · subst h
        simp [encodeBlock_length, genBlock_length]
      · exact ih (hs ▸ h)

theorem workerTrace_first_event (f : ℕ → ℚ) (ts n : ℕ) :
    (workerTrace f true ts (n + 1)).head? =
      some (WorkerEvent.deliver { data := encodeBlock (genBlock f), timestamp := ts }) := by
  rw [workerTrace]
  simp [captureCallback]

theorem handle_selectSource_eq (st : PluginState) (args : Option EValue) (tid : ℕ) :
    HandleMethodCall st "selectAudioSource" args tid =
      (st, match sourceIdArg args with
        | some s => MethodResponse.success (EValue.map
            [("success", EValue.bool true), ("selectedSourceId", EValue.str s)])
        | none => MethodResponse.error "INVALID_ARGUMENTS" "sourceId is required") := by
  unfold HandleMethodCall
  rw [if_neg (by decide), if_pos rfl]
  rcases args with _ | v
  · rfl
  · cases v with
    | map m =>
      rcases hm : lookupMap m "sourceId" with _ | w
      · simp [sourceIdArg, hm]
      · cases w <;> simp [sourceIdArg, hm]
    | str s => rfl
    | int n => rfl
    | bool b => rfl
    | list xs => rfl

theorem linux_selectSource_eq (args : Option EValue) :
    linuxHandle "selectAudioSource" args =
      (match sourceIdArg args with
        | some s => MethodResponse.success (EValue.map
            [("success", EValue.bool true), ("selectedSourceId", EValue.str s)])
        | none => MethodResponse.error "INVALID_ARGUMENTS" "sourceId is required") := by
  unfold linuxHandle
  rw [if_neg (by decide), if_pos rfl]
  rcases args with _ | v
  · rfl
  · cases v with
    | map m =>
      rcases hm : lookupMap m "sourceId" with _ | w
      · simp [sourceIdArg, flLookupString, hm]
      · cases w <;> simp [sourceIdArg, flLookupString, hm]
    | str s => rfl
    | int n => rfl
    | bool b => rfl
    | list xs => rfl

theorem handle_startCapture_eq (st : PluginState) (args : Option EValue) (tid : ℕ) :
    HandleMethodCall st "startCapture" args tid =
      ({ st with audioCapture := (StartCapture st.audioCapture () tid).1 },
       MethodResponse.success (EValue.map
         [("success", EValue.bool (!st.audioCapture.isCapturing)),
          ("message", EValue.str (if st.audioCapture.isCapturing
            then "Failed to start audio capture" else "Audio capture started"))])) := by
  unfold HandleMethodCall
  rw [if_neg (by decide), if_neg (by decide), if_pos rfl]
  rcases hc : st.audioCapture.isCapturing <;> simp [StartCapture, hc]

/-! ### Claims -/

/-- C1: `StartCapture` while already Capturing returns false and changes no
state (flag, callback and thread handle are left as they were); from a
non-capturing state it transitions to Capturing, spawns exactly one
producer thread (the returned boolean is precisely "this call spawned a
thread") and returns true; consequently after two consecutive
`StartCapture` calls with no intervening stop, the first call returns true,
the second returns false and changes nothing, and the engine holds exactly
the one thread spawned by the first call. -/
theorem claim_C1_startCapture :
    (∀ (C : Type) (s : EngineState C) (cb : C) (tid : ℕ), s.isCapturing = true →
       StartCapture s cb tid = (s, false)) ∧
    (∀ (C : Type) (s : EngineState C) (cb : C) (tid : ℕ), s.isCapturing = false →
       StartCapture s cb tid =
         ({ s with callback := some cb, isCapturing := true, captureThread := some tid },
          true)) ∧
    (∀ (C : Type) (s : EngineState C) (cb cb2 : C) (t1 t2 : ℕ), s.isCapturing = false →
       (StartCapture s cb t1).2 = true ∧
       (StartCapture (StartCapture s cb t1).1 cb2 t2).2 = false ∧
       (StartCapture (StartCapture s cb t1).1 cb2 t2).1 = (StartCapture s cb t1).1 ∧
       (StartCapture s cb t1).1.captureThread = some t1) := by
  refine ⟨fun C s cb tid h => by simp [StartCapture, h],
          fun C s cb tid h => by simp [StartCapture, h],
          fun C s cb cb2 t1 t2 h => ?_⟩
  simp [StartCapture, h]

theorem claim_C1_witness :
    (StartCapture (initEngine Unit) () 1).2 = true ∧
    (StartCapture (StartCapture (initEngine Unit) () 1).1 () 2).2 = false ∧
    (StartCapture (StartCapture (initEngine Unit) () 1).1 () 2).1 =
      (StartCapture (initEngine Unit) () 1).1 ∧
    (StartCapture (initEngine Unit) () 1).1.captureThread = some 1 :=
  claim_C1_startCapture.2.2 Unit (initEngine Unit) () () 1 2 rfl

/-- C2: `StopCapture` is a no-op on an Idle engine; on any state it clears
the capture flag and releases the thread handle (returning the engine to
Idle) and is idempotent, hence safe to call any number of times; and in the
interleaved stop/join protocol, once `StopCapture` has returned after a
capture, no further chunk is ever delivered (the join guarantees the worker
exited, so the delivered count can never change again). -/
theorem claim_C2_stopCapture :
    (∀ (C : Type) (s : EngineState C), Idle s → StopCapture s = s) ∧
    (∀ (C : Type) (s : EngineState C),
       (StopCapture s).isCapturing = false ∧ (StopCapture s).captureThread = none ∧
       StopCapture (StopCapture s) = StopCapture s) ∧
    (∀ s1 : StopSysState, StopSteps capturingInit s1 →
       s1.stopPhase = StopPhase.returned →
       ∀ s2 : StopSysState, StopSteps s1 s2 → s2.delivered = s1.delivered) := by
  refine ⟨fun C s h => ?_, fun C s => ⟨rfl, rfl, rfl⟩, fun s1 hs1 hret s2 hs2 => ?_⟩
  · obtain ⟨h1, h2⟩ := h
    cases s
    simp_all [StopCapture]
  · have hInv : StopInv s1 := stopInv_steps stopInv_init hs1
    rw [returned_terminal hInv hret hs2]

theorem claim_C2_witness :
    StopCapture (initEngine Unit) = initEngine Unit ∧
    ({ flag := false, workerAlive := false, stopPhase := StopPhase.returned,
       delivered := 0 } : StopSysState).delivered = 0 :=
  ⟨claim_C2_stopCapture.1 Unit (initEngine Unit) ⟨rfl, rfl⟩,
   (claim_C2_stopCapture.2.2
      { flag := false, workerAlive := false, stopPhase := StopPhase.returned,
        delivered := 0 }
      (Relation.ReflTransGen.head (StopStep.stopClearFlag capturingInit rfl)
        (Relation.ReflTransGen.head (StopStep.workerExit _ rfl rfl)
          (Relation.ReflTransGen.single (StopStep.stopJoinReturn _ rfl rfl))))
      rfl
      { flag := false, workerAlive := false, stopPhase := StopPhase.returned,
        delivered := 0 }
      Relation.ReflTransGen.refl).trans rfl⟩

/-- C9: destroying the engine runs the full `StopCapture` semantics (flag
cleared, thread joined and handle released) before the remaining resources
(COM) are released, for every state the engine is in at destruction time:
the destructor literally factors through `StopCapture`. -/
theorem claim_C9_destructor : ∀ (C : Type) (s : EngineState C),
    destroyEngine s = { StopCapture s with comInitialized := false } ∧
    (destroyEngine s).isCapturing = false ∧
    (destroyEngine s).captureThread = none ∧
    (destroyEngine s).callback = s.callback :=
  fun _ _ => ⟨rfl, rfl, rfl, rfl⟩

/-- C3: for every in-range sample `s` the encoder emits the 16-bit value
`round_toward_zero(s * 32767)` (`quantize s`) as two bytes, low byte
(`intSample & 0xFF`) first then high byte (`(intSample >> 8) & 0xFF`), so
the pair decoded as little-endian signed 16-bit recovers exactly that
value; a block of all-zero samples decodes to all zeros and a block of
constant 1.0 samples decodes to all 32767. -/
theorem claim_C3_encoding :
    (∀ s : ℚ, -1 ≤ s → s ≤ 1 →
       encodeSample s = [lowByte (quantize s), highByte (quantize s)] ∧
       decodeI16 (lowByte (quantize s)) (highByte (quantize s)) = quantize s) ∧
    decodeBlock (encodeBlock (List.replicate blockSizeFrames (0 : ℚ))) =
      List.replicate blockSizeFrames (0 : ℤ) ∧
    decodeBlock (encodeBlock (List.replicate blockSizeFrames (1 : ℚ))) =
      List.replicate blockSizeFrames (32767 : ℤ) := by
  refine ⟨fun s h1 h2 => ⟨rfl, decode_encode_sample h1 h2⟩, ?_, ?_⟩
  · rw [decodeBlock_encodeBlock _ (fun s hs => ?_), List.map_replicate, quantize_zero]
    rw [List.eq_of_mem_replicate hs]
    exact ⟨by norm_num, by norm_num⟩
  · rw [decodeBlock_encodeBlock _ (fun s hs => ?_), List.map_replicate, quantize_one]
    rw [List.eq_of_mem_replicate hs]
    exact ⟨by norm_num, le_refl 1⟩

theorem claim_C3_witness :
    decodeI16 (lowByte (quantize 0)) (highByte (quantize 0)) = quantize 0 :=
  (claim_C3_encoding.1 0 (by decide) (by decide)).2

/-- C6: every chunk the producer loop delivers to an attached sink carries
exactly `blockSizeFrames * 2` bytes (3200 for the fixed 1600-frame config),
and with a sink attached the very first event of the loop — before the
first 100 ms block-interval sleep, i.e. within one block interval of
starting — is a chunk delivery. -/
theorem claim_C6_chunks :
    (∀ (f : ℕ → ℚ) (sinkAttached : Bool) (ts n : ℕ) (c : Chunk),
       WorkerEvent.deliver c ∈ workerTrace f sinkAttached ts n →
       c.data.length = 2 * blockSizeFrames) ∧
    (∀ (f : ℕ → ℚ) (ts n : ℕ),
       (workerTrace f true ts (n + 1)).head? =
         some (WorkerEvent.deliver { data := encodeBlock (genBlock f), timestamp := ts })) :=
  ⟨fun _ _ _ _ _ h => workerTrace_deliver_length h, workerTrace_first_event⟩

theorem claim_C6_witness :
    ({ data := encodeBlock (genBlock (fun _ => 0)), timestamp := 0 } : Chunk).data.length =
      2 * blockSizeFrames :=
  claim_C6_chunks.1 (fun _ => 0) true 0 1
    { data := encodeBlock (genBlock (fun _ => 0)), timestamp := 0 }
    (by simp [workerTrace, captureCallback])

/-- C4 counterexample: the claim says an empty sourceId fails with
InvalidArgument, but selecting the empty string succeeds (echoing it back)
on both platforms — the empty string is a string, and neither
implementation tests for emptiness. -/
theorem claim_C4_counterexample :
    (HandleMethodCall initPlugin "selectAudioSource"
       (some (EValue.map [("sourceId", EValue.str "")])) 0).2 =
      MethodResponse.success (EValue.map
        [("success", EValue.bool true), ("selectedSourceId", EValue.str "")]) ∧
    linuxHandle "selectAudioSource" (some (EValue.map [("sourceId", EValue.str "")])) =
      MethodResponse.success (EValue.map
        [("success", EValue.bool true), ("selectedSourceId", EValue.str "")]) :=
  ⟨rfl, rfl⟩

/-- C4 (amended): `selectAudioSource` fails with InvalidArgument exactly
when the sourceId argument is absent or not a string; every string sourceId
— including the empty string and ids not present in the catalog — yields
success with the selected id echoed back, with no catalog validation.  On
both platforms. -/
theorem claim_C4_selectSource : ∀ (st : PluginState) (args : Option EValue) (tid : ℕ),
    HandleMethodCall st "selectAudioSource" args tid =
      (st, match sourceIdArg args with
        | some s => MethodResponse.success (EValue.map
            [("success", EValue.bool true), ("selectedSourceId", EValue.str s)])
        | none => MethodResponse.error "INVALID_ARGUMENTS" "sourceId is required") ∧
    linuxHandle "selectAudioSource" args =
      (match sourceIdArg args with
        | some s => MethodResponse.success (EValue.map
            [("success", EValue.bool true), ("selectedSourceId", EValue.str s)])
        | none => MethodResponse.error "INVALID_ARGUMENTS" "sourceId is required") :=
  fun st args tid => ⟨handle_selectSource_eq st args tid, linux_selectSource_eq args⟩

/-- C5: the source catalog of both platforms contains exactly one entry
whose id is `"system_audio"`, and the operation is deterministic — the
response is one constant value, independent of plugin state and arguments,
so two successive calls return lists of equal length with pairwise equal
ids. -/
theorem claim_C5_listSources :
    (∀ (st : PluginState) (args : Option EValue) (tid : ℕ),
       HandleMethodCall st "getAvailableAudioSources" args tid =
         (st, MethodResponse.success (EValue.list
           (systemAudioEntry :: deviceEntries GetAudioSources)))) ∧
    (systemAudioEntry :: deviceEntries GetAudioSources).countP isSystemAudioEntry = 1 ∧
    (∀ args : Option EValue,
       linuxHandle "getAudioSources" args =
         MethodResponse.success (EValue.list linuxSourceEntries)) ∧
    linuxSourceEntries.countP isSystemAudioEntry = 1 := by
  refine ⟨fun st args tid => ?_, by decide, fun args => ?_, by decide⟩
  · unfold HandleMethodCall
    rw [if_pos rfl]
  · unfold linuxHandle
    rw [if_pos rfl]

/-- C7 counterexample: on the Windows implementation, a second
`startCapture` without an intervening stop responds with success = false —
so the success field is not always true for every sequence of prior
operations. -/
theorem claim_C7_counterexample :
    (HandleMethodCall (HandleMethodCall initPlugin "startCapture" none 1).1
       "startCapture" none 2).2 =
      MethodResponse.success (EValue.map
        [("success", EValue.bool false),
         ("message", EValue.str "Failed to start audio capture")]) :=
  rfl

/-- C7 (amended): the `startCapture` boundary operation never reports an
error response; its success field is always true in the Linux mock, while
in the Windows implementation it mirrors the engine's start result: true
exactly when the engine was not already capturing. -/
theorem claim_C7_startCapture_success :
    ∀ (st : PluginState) (args : Option EValue) (tid : ℕ),
    (HandleMethodCall st "startCapture" args tid).2 =
      MethodResponse.success (EValue.map
        [("success", EValue.bool (!st.audioCapture.isCapturing)),
         ("message", EValue.str (if st.audioCapture.isCapturing
           then "Failed to start audio capture" else "Audio capture started"))]) ∧
    linuxHandle "startCapture" args =
      MethodResponse.success (EValue.map
        [("success", EValue.bool true),
         ("message", EValue.str "Capture started (mock implementation)")]) := by
  intro st args tid
  constructor
  · rw [handle_startCapture_eq]
  · unfold linuxHandle
    rw [if_neg (by decide), if_neg (by decide), if_pos rfl]

/-- C8: `getAudioConfig` returns, on both platforms, the one fixed record —
sample rate 16000, one channel, 16 bits per sample, block size 1600 frames
(keys `sampleRate` / `channels` / `bitsPerSample` / `bufferSize` on the
wire) — regardless of plugin state, prior operations or arguments. -/
theorem claim_C8_getAudioConfig :
    ∀ (st : PluginState) (args : Option EValue) (tid : ℕ),
    HandleMethodCall st "getAudioConfig" args tid =
      (st, MethodResponse.success (EValue.map
        [("sampleRate", EValue.int 16000), ("channels", EValue.int 1),
         ("bitsPerSample", EValue.int 16), ("bufferSize", EValue.int 1600)])) ∧
    linuxHandle "getAudioConfig" args =
      MethodResponse.success (EValue.map
        [("sampleRate", EValue.int 16000), ("channels", EValue.int 1),
         ("bitsPerSample", EValue.int 16), ("bufferSize", EValue.int 1600)]) ∧
    respField (HandleMethodCall st "getAudioConfig" args tid).2 "sampleRate" =
      some (EValue.int 16000) ∧
    respField (HandleMethodCall st "getAudioConfig" args tid).2 "channels" =
      some (EValue.int 1) ∧
    respField (HandleMethodCall st "getAudioConfig" args tid).2 "bitsPerSample" =
      some (EValue.int 16) ∧
    respField (HandleMethodCall st "getAudioConfig" args tid).2 "bufferSize" =
      some (EValue.int 1600) := by
  intro st args tid
  have hw : HandleMethodCall st "getAudioConfig" args tid =
      (st, MethodResponse.success (EValue.map
        [("sampleRate", EValue.int 16000), ("channels", EValue.int 1),
         ("bitsPerSample", EValue.int 16), ("bufferSize", EValue.int 1600)])) := by
    unfold HandleMethodCall
    rw [if_neg (by decide), if_neg (by decide), if_neg (by decide),
      if_neg (by decide), if_pos rfl]
  have hl : linuxHandle "getAudioConfig" args =
      MethodResponse.success (EValue.map
        [("sampleRate", EValue.int 16000), ("channels", EValue.int 1),
         ("bitsPerSample", EValue.int 16), ("bufferSize", EValue.int 1600)]) := by
    unfold linuxHandle
    rw [if_neg (by decide), if_neg (by decide), if_neg (by decide),
      if_neg (by decide), if_pos rfl]
  refine ⟨hw, hl, ?_, ?_, ?_, ?_⟩ <;> rw [hw] <;> rfl

/-- C10: handling `selectAudioSource` is free of side effects for every
argument value — the plugin and engine state after the call is exactly the
state before, no selection is stored anywhere (the state type has no field
for one), and therefore every subsequent method call, in particular
`startCapture` and the producer/encoder pipeline it starts (whose block
content `genBlock f` reads no plugin state at all), behaves identically
whether or not `selectAudioSource` was ever called and regardless of the
selected id. -/
theorem claim_C10_selectSource_frame :
    ∀ (st : PluginState) (args : Option EValue) (tid : ℕ),
    (HandleMethodCall st "selectAudioSource" args tid).1 = st ∧
    (∀ (method2 : String) (args2 : Option EValue) (tid2 : ℕ),
       HandleMethodCall (HandleMethodCall st "selectAudioSource" args tid).1
           method2 args2 tid2 =
         HandleMethodCall st method2 args2 tid2) := by
  intro st args tid
  have h1 : (HandleMethodCall st "selectAudioSource" args tid).1 = st := by
    rw [handle_selectSource_eq]
  exact ⟨h1, fun method2 args2 tid2 => by rw [h1]⟩

end MeetingNoteSummarizer
